import Mathlib

/-!
Verification development for the rsim-macro component preprocessor
(src/lib.rs, the proc macro `ComponentAttribute`).

The macro consumes a JSON configuration (deserialized into `ComponentConfig`)
and an annotated struct, and emits (1) extra struct fields and (2) an
`impl Component` block whose methods `init`, `reset`, `poll_recv` and
`get_component_id` are assembled by pushing statements onto fixed bodies.

We embed the macro as a function from the parsed configuration to a
description of the generated fields and statement lists, mirroring the
push sites in src/lib.rs, and give the generated statements an operational
semantics.  Receiver behaviour (rsim_core's `Rx`) is not part of this
repository; where a claim depends on it, the receiver is modelled from the
specification's words (see `RxBuf`).
-/

set_option linter.all false

namespace RsimMacro

/-- Tri-state result of `Rx::try_recv` (`rsim_core::rx::RxType`).  The
generated code in `push_comb_recv_stmt` compares against `NewValue` and
`NoValue`; the third state is called `Repeated`/stale by the spec. -/
inductive RxType
  | NoValue
  | NewValue
  | Repeated
  deriving DecidableEq, Repr

/-- The port configuration embedded in the attribute JSON
(struct `ComponentPortConfig` in src/lib.rs): optional lists of named,
typed input and output ports and a `clock` flag defaulting to false. -/
structure ComponentPortConfig where
  input : Option (List (String × String))
  output : Option (List (String × String))
  clock : Bool
  deriving DecidableEq, Repr

/-- The attribute configuration (struct `ComponentConfig` in src/lib.rs):
an optional port configuration and an `is_primary` flag defaulting to
false. -/
structure ComponentConfig where
  port : Option ComponentPortConfig
  is_primary : Bool
  deriving DecidableEq, Repr

/-- Fields the macro may place on the component struct.  The constructors
`inputVal` and `inputValOld` correspond to items 5 and 6 of the macro's own
doc comment (a plain field holding a port's value and a shadow field
named with an `_old` suffix); they are representable here so that their
absence from the macro's actual output is expressible. -/
inductive GField
  | user (name ty : String)
  | component_id
  | sim_manager
  | ack_sender
  | clock_sender
  | clock_receiver
  | inputRx (name ty : String)
  | outputTx (name ty : String)
  | inputVal (name ty : String)
  | inputValOld (name ty : String)
  deriving DecidableEq, Repr

/-- Statements occurring in the generated `impl Component` methods.
Each constructor stands for one concrete Rust statement quoted in
src/lib.rs.  `copyRecvValue` stands for the data-extraction statement
promised by the macro's doc comment (the received value put into the
port's value field); it is representable so that its absence from the
macro's actual output is expressible. -/
inductive GStmt
  | callInitImpl
  | callResetImpl
  | callPollImpl
  | exprComponentId
  | registerDoNotEnd
  | registerClockTick
  | clockRecv
  | letRecvResult (port : String)
  | ifNewValueOnComb (port : String)
  | ifNotNoValueAck (port : String)
  | rxReset (port : String)
  | copyRecvValue (port : String)
  deriving DecidableEq, Repr

/-- Bodies of the four methods of the generated `impl Component` block. -/
structure GenImpl where
  init : List GStmt
  reset : List GStmt
  poll_recv : List GStmt
  get_component_id : List GStmt
  deriving DecidableEq, Repr

/-- The macro's output: the field list of the rewritten struct (user fields
followed by the appended `extended_field` list) and the generated impl. -/
structure Generated where
  fields : List GField
  impl : GenImpl
  deriving DecidableEq, Repr

/-- The input ports declared by a configuration (empty when `port` or
`port.input` is absent), in declaration order. -/
def inputsOf (cfg : ComponentConfig) : List (String × String) :=
  match cfg.port with
  | some p => p.input.getD []
  | none => []

/-- The output ports declared by a configuration. -/
def outputsOf (cfg : ComponentConfig) : List (String × String) :=
  match cfg.port with
  | some p => p.output.getD []
  | none => []

/-- Whether the configuration's port config sets `clock` to true. -/
def clockOn (cfg : ComponentConfig) : Bool :=
  match cfg.port with
  | some p => p.clock
  | none => false

/-- The statement block pushed by `push_clock_recv_stmt` (src/lib.rs):
one `if let Ok(event) = self.clock_receiver.try_recv()` block that calls
`on_clock`, then `on_comb`, then `ack_sender.send(event.get_event_id())`. -/
def push_clock_recv_stmt : List GStmt :=
  [GStmt.clockRecv]

/-- The three statements pushed by `push_comb_recv_stmt` (src/lib.rs) for
one input port: bind `recv_result` to the port's `try_recv()`, invoke
`on_comb` if the result equals `RxType::NewValue`, invoke the port's
`ack()` if the result differs from `RxType::NoValue`. -/
def push_comb_recv_stmt (port_name : String) : List GStmt :=
  [GStmt.letRecvResult port_name,
   GStmt.ifNewValueOnComb port_name,
   GStmt.ifNotNoValueAck port_name]

/-- The statement pushed by `push_reset_stmt` (src/lib.rs) for one input
port: the port receiver's `reset()`. -/
def push_reset_stmt (port_name : String) : List GStmt :=
  [GStmt.rxReset port_name]

/-- The three fields every component receives (`extended_field`'s initial
contents in src/lib.rs): `component_id`, `sim_manager`, `ack_sender`. -/
def baseFields : List GField :=
  [GField.component_id, GField.sim_manager, GField.ack_sender]

/-- The clock fields appended when the port config has `clock: true`. -/
def clockFields (cfg : ComponentConfig) : List GField :=
  if clockOn cfg then [GField.clock_sender, GField.clock_receiver] else []

/-- One `pub name: rsim_core::rx::Rx<ty>` field per declared input port. -/
def inputRxFields (cfg : ComponentConfig) : List GField :=
  (inputsOf cfg).map fun nt => GField.inputRx nt.1 nt.2

/-- One `pub name: rsim_core::tx::Tx<ty>` field per declared output port. -/
def outputTxFields (cfg : ComponentConfig) : List GField :=
  (outputsOf cfg).map fun nt => GField.outputTx nt.1 nt.2

/-- The generated `init` body: the fixed `self.init_impl();`, then (when
`is_primary`) `self.sim_manager.register_do_not_end(self.get_component_id());`,
then (when clocked)
`self.sim_manager.register_clock_tick(self.clock_sender.clone());` —
matching the push order in `ComponentAttribute` (the `is_primary` block
precedes the port block). -/
def initStmts (cfg : ComponentConfig) : List GStmt :=
  [GStmt.callInitImpl]
    ++ (if cfg.is_primary then [GStmt.registerDoNotEnd] else [])
    ++ (if clockOn cfg then [GStmt.registerClockTick] else [])

/-- The per-input-port reset statements, in declaration order. -/
def combResetStmts : List (String × String) → List GStmt
  | [] => []
  | nt :: rest => push_reset_stmt nt.1 ++ combResetStmts rest

/-- The generated `reset` body: the fixed `self.reset_impl();` followed by
one `self.port.reset();` per declared input port. -/
def resetStmts (cfg : ComponentConfig) : List GStmt :=
  [GStmt.callResetImpl] ++ combResetStmts (inputsOf cfg)

/-- The per-input-port polling statements, in declaration order: the
`push_comb_recv_stmt` triple for each declared input port. -/
def combPollStmts : List (String × String) → List GStmt
  | [] => []
  | nt :: rest => push_comb_recv_stmt nt.1 ++ combPollStmts rest

/-- The generated `poll_recv` body: the fixed `self.poll_impl();`, then
(when clocked) the `push_clock_recv_stmt` block, then the
`push_comb_recv_stmt` triples of every declared input port — matching the
push order in `ComponentAttribute` (the clock branch runs before the
`port.input` iteration). -/
def pollRecvStmts (cfg : ComponentConfig) : List GStmt :=
  [GStmt.callPollImpl]
    ++ (if clockOn cfg then push_clock_recv_stmt else [])
    ++ combPollStmts (inputsOf cfg)

/-- The embedding of the proc macro `ComponentAttribute` (src/lib.rs) on an
already-parsed configuration and a named-fields struct (given as its list
of user fields).  Field order mirrors `extended_field`: the three base
fields, then the clock pair if clocked, then one `Rx` field per input
port, then one `Tx` field per output port, all appended after the user's
own fields.  The impl bodies mirror the statement pushes described above;
`get_component_id` has the fixed body `self.component_id`. -/
def componentAttribute (cfg : ComponentConfig) (userFields : List (String × String)) :
    Generated :=
  { fields := userFields.map (fun nt => GField.user nt.1 nt.2)
      ++ baseFields ++ clockFields cfg ++ inputRxFields cfg ++ outputTxFields cfg
    impl :=
      { init := initStmts cfg
        reset := resetStmts cfg
        poll_recv := pollRecvStmts cfg
        get_component_id := [GStmt.exprComponentId] } }

/-- Modelled from the spec: the state of an input port's receiver
(`rsim_core::rx::Rx`, whose source is not part of this repository).
Section 4.2 of the spec: the receiver holds at most the most recently
unconsumed value; `try_recv` returns `NoValue` when nothing has arrived,
`NewValue` the first time a freshly produced value is observed, and after
that `NewValue` is consumed, subsequent calls before the next upstream
send return `Repeated`.  Event identifiers are modelled as naturals; the
payload value is irrelevant to the claims and omitted. -/
inductive RxBuf
  | empty
  | fresh (e : Nat)
  | seen (e : Nat)
  deriving DecidableEq, Repr

/-- Modelled from the spec (section 4.2): one `try_recv` step on a
receiver, returning the tri-state result and the successor state. -/
def tryRecvBuf : RxBuf → RxType × RxBuf
  | RxBuf.empty => (RxType.NoValue, RxBuf.empty)
  | RxBuf.fresh e => (RxType.NewValue, RxBuf.seen e)
  | RxBuf.seen e => (RxType.Repeated, RxBuf.seen e)

/-- Modelled from the spec (section 4.2): `ack()` signals that the most
recently received value has been fully processed; each call emits the
acknowledgment of the held event (the spec states no idempotence). -/
def ackBuf : RxBuf → Option Nat
  | RxBuf.empty => none
  | RxBuf.fresh e => some e
  | RxBuf.seen e => some e

/-- Observable events of one execution of the generated methods.  User
callbacks (`poll_impl`, `on_comb`, `on_clock`, ...) are recorded as trace
markers; `onCombPort p` is the `self.on_comb()` call issued from port p's
generated `if recv_result == NewValue` statement, while `onCombClock` is
the one issued from the clock block — both invoke the same user callback,
the tag records the generated call site. -/
inductive Ev
  | initImpl
  | resetImpl
  | pollImpl
  | getComponentId
  | regDoNotEnd
  | regClockTick
  | tryRecvClock (e : Option Nat)
  | onClock
  | onCombClock
  | ackClock (e : Nat)
  | tryRecvPort (p : String) (r : RxType)
  | onCombPort (p : String)
  | ackPort (p : String) (e : Nat)
  | rxResetPort (p : String)
  | copyValue (p : String)
  deriving DecidableEq, Repr

/-- Execution state of a component: the buffer of each input-port
receiver, the pending clock tick on `clock_receiver` (if any), and the
value of the most recent `let recv_result = ...` binding (the generated
per-port bindings shadow one another, so a single register is faithful). -/
structure ExecState where
  bufs : String → RxBuf
  clockQ : Option Nat
  recvResult : RxType

/-- One generated statement's effect: the events it emits and the
successor state.  User-callback statements only emit their marker. -/
def execStmt (s : ExecState) : GStmt → List Ev × ExecState
  | GStmt.callInitImpl => ([Ev.initImpl], s)
  | GStmt.callResetImpl => ([Ev.resetImpl], s)
  | GStmt.callPollImpl => ([Ev.pollImpl], s)
  | GStmt.exprComponentId => ([Ev.getComponentId], s)
  | GStmt.registerDoNotEnd => ([Ev.regDoNotEnd], s)
  | GStmt.registerClockTick => ([Ev.regClockTick], s)
  | GStmt.clockRecv =>
      match s.clockQ with
      | some e => ([Ev.tryRecvClock (some e), Ev.onClock, Ev.onCombClock, Ev.ackClock e],
          { s with clockQ := none })
      | none => ([Ev.tryRecvClock none], s)
  | GStmt.letRecvResult p =>
      ([Ev.tryRecvPort p (tryRecvBuf (s.bufs p)).1],
       { s with recvResult := (tryRecvBuf (s.bufs p)).1,
                bufs := fun x => if x = p then (tryRecvBuf (s.bufs p)).2 else s.bufs x })
  | GStmt.ifNewValueOnComb p =>
      if s.recvResult = RxType.NewValue then ([Ev.onCombPort p], s) else ([], s)
  | GStmt.ifNotNoValueAck p =>
      if s.recvResult = RxType.NoValue then ([], s)
      else
        match ackBuf (s.bufs p) with
        | some e => ([Ev.ackPort p e], s)
        | none => ([], s)
  | GStmt.rxReset p =>
      ([Ev.rxResetPort p],
       { s with bufs := fun x => if x = p then RxBuf.empty else s.bufs x })
  | GStmt.copyRecvValue p => ([Ev.copyValue p], s)

/-- Sequential execution of a statement list, collecting the trace. -/
def execStmts : List GStmt → ExecState → List Ev × ExecState
  | [], s => ([], s)
  | st :: rest, s =>
      let r1 := execStmt s st
      let r2 := execStmts rest r1.2
      (r1.1 ++ r2.1, r2.2)

/-- One invocation of the generated `poll_recv`. -/
def execPoll (g : Generated) (s : ExecState) : List Ev × ExecState :=
  execStmts g.impl.poll_recv s

/-- n successive invocations of the generated `poll_recv` (the driving
loop's repeated passes), concatenating the traces. -/
def execPasses : Nat → Generated → ExecState → List Ev × ExecState
  | 0, _, s => ([], s)
  | n + 1, g, s =>
      let r1 := execPoll g s
      let r2 := execPasses n g r1.2
      (r1.1 ++ r2.1, r2.2)

/-- The events emitted by one port's `push_comb_recv_stmt` triple as a
function of the port's receiver state when the triple starts. -/
def combHeadTrace (q : String) : RxBuf → List Ev
  | RxBuf.empty => [Ev.tryRecvPort q RxType.NoValue]
  | RxBuf.fresh e => [Ev.tryRecvPort q RxType.NewValue, Ev.onCombPort q, Ev.ackPort q e]
  | RxBuf.seen e => [Ev.tryRecvPort q RxType.Repeated, Ev.ackPort q e]

/-- The state after one port's `push_comb_recv_stmt` triple: the port's
receiver has taken a `try_recv` step and `recv_result` holds its result. -/
def combHeadState (q : String) (s : ExecState) : ExecState :=
  { s with recvResult := (tryRecvBuf (s.bufs q)).1,
           bufs := fun x => if x = q then (tryRecvBuf (s.bufs q)).2 else s.bufs x }

/-- A JSON value, the shape of the macro's attribute argument after
serde_json's text-level parse (which is external to this repository). -/
inductive Json
  | null
  | bool (b : Bool)
  | num (n : Int)
  | str (s : String)
  | arr (elems : List Json)
  | obj (members : List (String × Json))

/-- Deserialization of one `(String, String)` port entry: serde reads a
Rust 2-tuple from a JSON array of exactly two strings. -/
def parsePortPair : Json → Except String (String × String)
  | Json.arr [Json.str a, Json.str b] => Except.ok (a, b)
  | _ => Except.error "invalid port entry"

/-- Deserialization of `Vec<(String, String)>`: a JSON array of entries. -/
def parsePortPairs : Json → Except String (List (String × String))
  | Json.arr es => es.mapM parsePortPair
  | _ => Except.error "expected an array of port entries"

/-- Deserialization of `Option<Vec<(String, String)>>`: JSON null gives
`None`, anything else must be a valid port list. -/
def parseOptPortPairs : Json → Except String (Option (List (String × String)))
  | Json.null => Except.ok none
  | j => (parsePortPairs j).map some

/-- Field loop of serde's derived deserializer for `ComponentPortConfig`
over a JSON object's members: known fields are parsed once (a duplicate is
an error), unknown fields are ignored, a missing `Option` field yields
`None` and the missing `clock` field yields its serde default `false`. -/
def portConfigFromMembers : List (String × Json) →
    Option (Option (List (String × String))) →
    Option (Option (List (String × String))) →
    Option Bool → Except String ComponentPortConfig
  | [], i, o, c =>
      Except.ok { input := i.getD none, output := o.getD none, clock := c.getD false }
  | (k, v) :: rest, i, o, c =>
      if k = "input" then
        match i with
        | some _ => Except.error "duplicate field input"
        | none => do
            let pl ← parseOptPortPairs v
            portConfigFromMembers rest (some pl) o c
      else if k = "output" then
        match o with
        | some _ => Except.error "duplicate field output"
        | none => do
            let pl ← parseOptPortPairs v
            portConfigFromMembers rest i (some pl) c
      else if k = "clock" then
        match c, v with
        | some _, _ => Except.error "duplicate field clock"
        | none, Json.bool b => portConfigFromMembers rest i o (some b)
        | none, _ => Except.error "invalid type for clock"
      else portConfigFromMembers rest i o c

/-- Deserialization of `ComponentPortConfig` from a JSON value (object
form, the shape the attribute is written in). -/
def ComponentPortConfig.fromJson : Json → Except String ComponentPortConfig
  | Json.obj kvs => portConfigFromMembers kvs none none none
  | _ => Except.error "expected an object for ComponentPortConfig"

/-- Field loop of serde's derived deserializer for `ComponentConfig`:
fields `port` (an `Option`, missing or null gives `None`) and
`is_primary` (serde default `false` when missing); unknown fields are
ignored, duplicates are errors. -/
def configFromMembers : List (String × Json) →
    Option (Option ComponentPortConfig) → Option Bool →
    Except String ComponentConfig
  | [], p, pr =>
      Except.ok { port := p.getD none, is_primary := pr.getD false }
  | (k, v) :: rest, p, pr =>
      if k = "port" then
        match p with
        | some _ => Except.error "duplicate field port"
        | none =>
          match v with
          | Json.null => configFromMembers rest (some none) pr
          | _ => do
              let pc ← ComponentPortConfig.fromJson v
              configFromMembers rest (some (some pc)) pr
      else if k = "is_primary" then
        match pr, v with
        | some _, _ => Except.error "duplicate field is_primary"
        | none, Json.bool b => configFromMembers rest p (some b)
        | none, _ => Except.error "invalid type for is_primary"
      else configFromMembers rest p pr

/-- Deserialization of the attribute JSON into `ComponentConfig`
(`serde_json::from_str` in src/lib.rs line 68, modelled at the JSON-value
level for the object form the attribute is written in). -/
def ComponentConfig.fromJson : Json → Except String ComponentConfig
  | Json.obj kvs => configFromMembers kvs none none
  | _ => Except.error "expected an object for ComponentConfig"

/-- The fallible macro entry point: `ComponentAttribute` unwraps the serde
parse of its attribute argument (panicking on failure), and for each
declared input and output port unwraps `format_ident!` on the port name
and the token-level parse of the port type string (both delegated to
external crates and taken here as boolean oracles `identOk` and
`parseTyOk`).  A panic produces no output token stream, modelled as
`none`. -/
def componentAttributeFallible (parseTyOk : String → Bool) (identOk : String → Bool)
    (j : Json) (userFields : List (String × String)) : Option Generated :=
  match ComponentConfig.fromJson j with
  | Except.error _ => none
  | Except.ok cfg =>
      if ((inputsOf cfg).all fun nt => identOk nt.1 && parseTyOk nt.2)
          && ((outputsOf cfg).all fun nt => identOk nt.1 && parseTyOk nt.2) then
        some (componentAttribute cfg userFields)
      else none

/-- A one-input-port, unclocked, non-primary configuration:
the attribute argument is the JSON text
\x7b"port": \x7b"input": [["a", "u32"]]\x7d\x7d. -/
def cfgOneInput : ComponentConfig :=
  { port := some { input := some [("a", "u32")], output := none, clock := false }
    is_primary := false }

/-- The generated output for `cfgOneInput` on a struct with no user
fields. -/
def genOneInput : Generated :=
  componentAttribute cfgOneInput []

/-- A clocked one-input-port configuration. -/
def cfgClockInput : ComponentConfig :=
  { port := some { input := some [("a", "u32")], output := none, clock := true }
    is_primary := false }

/-- Execution state in which one value (event id 0) has been sent on port
"a" and not yet observed, no clock tick is pending, and every other port
is empty. -/
def stOneSend : ExecState :=
  { bufs := fun p => if p = "a" then RxBuf.fresh 0 else RxBuf.empty
    clockQ := none
    recvResult := RxType.NoValue }

/-- Execution state in which port "a" has already observed (as `NewValue`)
and acknowledged the value of event id 5, with no new send since. -/
def stSeenFive : ExecState :=
  { bufs := fun p => if p = "a" then RxBuf.seen 5 else RxBuf.empty
    clockQ := none
    recvResult := RxType.NoValue }

/-- Execution state with a pending clock tick (event id 7) and one unseen
value (event id 3) on port "a". -/
def stTickAndSend : ExecState :=
  { bufs := fun p => if p = "a" then RxBuf.fresh 3 else RxBuf.empty
    clockQ := some 7
    recvResult := RxType.NoValue }

/-- A well-formed attribute JSON:
\x7b"port": \x7b"input": [["a", "u32"]], "clock": true\x7d, "is_primary": true\x7d. -/
def jsonGood : Json :=
  Json.obj [("port", Json.obj [("input", Json.arr [Json.arr [Json.str "a", Json.str "u32"]]),
                               ("clock", Json.bool true)]),
            ("is_primary", Json.bool true)]

/-- The configuration `jsonGood` deserializes to. -/
def cfgGood : ComponentConfig :=
  { port := some { input := some [("a", "u32")], output := none, clock := true }
    is_primary := true }

/-- An attribute JSON that is not deserializable into `ComponentConfig`:
\x7b"port": 3\x7d (the `port` field is a number, not an object). -/
def jsonBad : Json :=
  Json.obj [("port", Json.num 3)]

theorem execStmts_append (xs ys : List GStmt) (s : ExecState) :
    execStmts (xs ++ ys) s =
      ((execStmts xs s).1 ++ (execStmts ys (execStmts xs s).2).1,
       (execStmts ys (execStmts xs s).2).2) := by
  induction xs generalizing s with
  | nil => simp [execStmts]
  | cons st rest ih => simp [execStmts, ih]

theorem comb_step (q : String) (rest : List GStmt) (s : ExecState) :
    execStmts (push_comb_recv_stmt q ++ rest) s =
      (combHeadTrace q (s.bufs q) ++ (execStmts rest (combHeadState q s)).1,
       (execStmts rest (combHeadState q s)).2) := by
  cases hb : s.bufs q <;>
    simp [push_comb_recv_stmt, execStmts, execStmt, combHeadTrace, combHeadState,
      tryRecvBuf, ackBuf, hb]

theorem combPoll_counts (l : List (String × String)) :
    (combPollStmts l).count GStmt.registerDoNotEnd = 0 ∧
    (combPollStmts l).count GStmt.registerClockTick = 0 := by
  induction l with
  | nil => simp [combPollStmts]
  | cons nt rest ih =>
      simp [combPollStmts, push_comb_recv_stmt, List.count_cons, ih.1, ih.2]

theorem combReset_counts (l : List (String × String)) :
    (combResetStmts l).count GStmt.registerDoNotEnd = 0 ∧
    (combResetStmts l).count GStmt.registerClockTick = 0 := by
  induction l with
  | nil => simp [combResetStmts]
  | cons nt rest ih =>
      simp [combResetStmts, push_reset_stmt, List.count_cons, ih.1, ih.2]

/-- Claim C4: the generated `init` calls
`SimManager.register_do_not_end(self.get_component_id())` exactly when the
configuration flags the component as primary, and that registration
statement occurs in no other generated method. -/
theorem claim_C4_register_do_not_end (cfg : ComponentConfig)
    (uf : List (String × String)) :
    ((componentAttribute cfg uf).impl.init.count GStmt.registerDoNotEnd
        = if cfg.is_primary then 1 else 0)
    ∧ (componentAttribute cfg uf).impl.reset.count GStmt.registerDoNotEnd = 0
    ∧ (componentAttribute cfg uf).impl.poll_recv.count GStmt.registerDoNotEnd = 0
    ∧ (componentAttribute cfg uf).impl.get_component_id.count GStmt.registerDoNotEnd
        = 0 := by
  refine ⟨?_, ?_, ?_, ?_⟩
  · cases hp : cfg.is_primary <;> cases hc : clockOn cfg <;>
      simp [componentAttribute, initStmts, hp, hc, List.count_cons]
  · simp [componentAttribute, resetStmts, List.count_cons, (combReset_counts _).1]
  · cases hc : clockOn cfg <;>
      simp [componentAttribute, pollRecvStmts, push_clock_recv_stmt, hc,
        List.count_cons, (combPoll_counts _).1]
  · simp [componentAttribute, List.count_cons]

/-- Claim C5: the generated `init` calls
`SimManager.register_clock_tick(self.clock_sender.clone())` exactly once
when the port config sets `clock` to true and never otherwise, and that
registration statement occurs in no other generated method. -/
theorem claim_C5_register_clock_tick (cfg : ComponentConfig)
    (uf : List (String × String)) :
    ((componentAttribute cfg uf).impl.init.count GStmt.registerClockTick
        = if clockOn cfg then 1 else 0)
    ∧ (componentAttribute cfg uf).impl.reset.count GStmt.registerClockTick = 0
    ∧ (componentAttribute cfg uf).impl.poll_recv.count GStmt.registerClockTick = 0
    ∧ (componentAttribute cfg uf).impl.get_component_id.count GStmt.registerClockTick
        = 0 := by
  refine ⟨?_, ?_, ?_, ?_⟩
  · cases hp : cfg.is_primary <;> cases hc : clockOn cfg <;>
      simp [componentAttribute, initStmts, hp, hc, List.count_cons]
  · simp [componentAttribute, resetStmts, List.count_cons, (combReset_counts _).2]
  · cases hc : clockOn cfg <;>
      simp [componentAttribute, pollRecvStmts, push_clock_recv_stmt, hc,
        List.count_cons, (combPoll_counts _).2]
  · simp [componentAttribute, List.count_cons]

/-- Claim C7 (code bug): evaluated on the config declaring input port
"a" of type u32, the macro's whole output.  The field list contains only
the three base fields and one `pub a: rsim_core::rx::Rx<u32>` receiver
field — no current-value field `a: u32` and no shadow field `a_old: u32`,
both of which the macro's own doc comment (items 5 and 6) promises — and
the generated `poll_recv` contains no statement copying the received value
out of the receiver (the doc comment promises the data extracted and put
into the value field). -/
theorem claim_C7_missing_value_fields :
    componentAttribute cfgOneInput [] =
      { fields := [GField.component_id, GField.sim_manager, GField.ack_sender,
                   GField.inputRx "a" "u32"],
        impl := { init := [GStmt.callInitImpl],
                  reset := [GStmt.callResetImpl, GStmt.rxReset "a"],
                  poll_recv := [GStmt.callPollImpl, GStmt.letRecvResult "a",
                                GStmt.ifNewValueOnComb "a", GStmt.ifNotNoValueAck "a"],
                  get_component_id := [GStmt.exprComponentId] } }
    ∧ (componentAttribute cfgOneInput []).fields.count (GField.inputVal "a" "u32") = 0
    ∧ (componentAttribute cfgOneInput []).fields.count (GField.inputValOld "a" "u32") = 0
    ∧ (componentAttribute cfgOneInput []).impl.poll_recv.count
        (GStmt.copyRecvValue "a") = 0 := by
  refine ⟨by decide, by decide, by decide, by decide⟩

/-- Claim C8 counterexample: on a clocked one-input config, the generated
`poll_recv` body is the `self.poll_impl();` call followed by the clock
block and the port-polling triple as sibling statements.  Had the
generated polling logic executed within the `poll_impl` call (as the claim
states), `poll_recv`'s body would consist of the delegating call alone;
instead the clock and input-port polling statements live directly in
`poll_recv`, after the call into user code. -/
theorem claim_C8_counterexample :
    (componentAttribute cfgClockInput []).impl.poll_recv =
      [GStmt.callPollImpl, GStmt.clockRecv, GStmt.letRecvResult "a",
       GStmt.ifNewValueOnComb "a", GStmt.ifNotNoValueAck "a"] := by
  decide

/-- Claim C10: output ports contribute exactly one public `Tx` field each,
appended after all other fields, and contribute nothing to any generated
method: the generated impl is identical with the output declarations
erased. -/
theorem claim_C10_outputs_only_fields (b : Bool) (pc : ComponentPortConfig)
    (uf : List (String × String)) :
    (componentAttribute { port := some pc, is_primary := b } uf).impl =
      (componentAttribute { port := some { pc with output := none }, is_primary := b }
        uf).impl
    ∧ (componentAttribute { port := some pc, is_primary := b } uf).fields =
        (componentAttribute { port := some { pc with output := none }, is_primary := b }
          uf).fields
        ++ (pc.output.getD []).map fun nt => GField.outputTx nt.1 nt.2 := by
  constructor
  · simp [componentAttribute, initStmts, resetStmts, pollRecvStmts, clockOn, inputsOf]
  · simp [componentAttribute, clockFields, inputRxFields, outputTxFields, clockOn,
      inputsOf, outputsOf]

theorem comb_onComb_iff (l : List (String × String)) (s : ExecState) (p : String) :
    Ev.onCombPort p ∈ (execStmts (combPollStmts l) s).1 ↔
      Ev.tryRecvPort p RxType.NewValue ∈ (execStmts (combPollStmts l) s).1 := by
  induction l generalizing s with
  | nil => simp [combPollStmts, execStmts]
  | cons nt rest ih =>
      rw [combPollStmts, comb_step]
      cases hb : s.bufs nt.1 with
      | empty => simp [combHeadTrace, ih]
      | fresh e =>
          by_cases hpq : p = nt.1
          · subst hpq; simp [combHeadTrace]
          · simp [combHeadTrace, hpq, ih]
      | seen e =>
          by_cases hpq : p = nt.1
          · subst hpq; simp [combHeadTrace, ih]
          · simp [combHeadTrace, hpq, ih]

theorem comb_ack_justified (l : List (String × String)) (s : ExecState)
    (p : String) (e : Nat)
    (h : Ev.ackPort p e ∈ (execStmts (combPollStmts l) s).1) :
    Ev.tryRecvPort p RxType.NewValue ∈ (execStmts (combPollStmts l) s).1 ∨
      (Ev.tryRecvPort p RxType.Repeated ∈ (execStmts (combPollStmts l) s).1 ∧
        s.bufs p = RxBuf.seen e) := by
  induction l generalizing s with
  | nil => simp [combPollStmts, execStmts] at h
  | cons nt rest ih =>
      rw [combPollStmts, comb_step] at h ⊢
      cases hb : s.bufs nt.1 with
      | empty =>
          rw [hb] at h
          simp only [combHeadTrace, List.cons_append, List.nil_append,
            List.mem_cons] at h
          rcases h with h | h
          · exact absurd h (by simp)
          · rcases ih (combHeadState nt.1 s) h with hn | ⟨hr, hs⟩
            · exact Or.inl (by simp [combHeadTrace, hb, hn])
            · by_cases hpq : p = nt.1
              · subst hpq
                simp [combHeadState, hb, tryRecvBuf] at hs
              · refine Or.inr ⟨by simp [combHeadTrace, hb, hr], ?_⟩
                simpa [combHeadState, hpq] using hs
      | fresh e' =>
          rw [hb] at h
          simp only [combHeadTrace, List.cons_append, List.nil_append,
            List.mem_cons] at h
          rcases h with h | h | h | h
          · exact absurd h (by simp)
          · exact absurd h (by simp)
          · injection h with h1 h2
            subst h1
            exact Or.inl (by simp [combHeadTrace, hb])
          · rcases ih (combHeadState nt.1 s) h with hn | ⟨hr, hs⟩
            · exact Or.inl (by simp [combHeadTrace, hb, hn])
            · by_cases hpq : p = nt.1
              · subst hpq
                exact Or.inl (by simp [combHeadTrace, hb])
              · refine Or.inr ⟨by simp [combHeadTrace, hb, hr], ?_⟩
                simpa [combHeadState, hpq] using hs
      | seen e' =>
          rw [hb] at h
          simp only [combHeadTrace, List.cons_append, List.nil_append,
            List.mem_cons] at h
          rcases h with h | h | h
          · exact absurd h (by simp)
          · injection h with h1 h2
            subst h1
            subst h2
            exact Or.inr ⟨by simp [combHeadTrace, hb], hb⟩
          · rcases ih (combHeadState nt.1 s) h with hn | ⟨hr, hs⟩
            · exact Or.inl (by simp [combHeadTrace, hb, hn])
            · by_cases hpq : p = nt.1
              · subst hpq
                have : RxBuf.seen e' = RxBuf.seen e := by
                  simpa [combHeadState, tryRecvBuf, hb] using hs
                cases this
                exact Or.inr ⟨by simp [combHeadTrace, hb, hr], hb⟩
              · refine Or.inr ⟨by simp [combHeadTrace, hb, hr], ?_⟩
                simpa [combHeadState, hpq] using hs

theorem comb_tryRecv_acked (l : List (String × String)) (s : ExecState)
    (p : String) (r : RxType)
    (h : Ev.tryRecvPort p r ∈ (execStmts (combPollStmts l) s).1)
    (hr : r ≠ RxType.NoValue) :
    ∃ e, Ev.ackPort p e ∈ (execStmts (combPollStmts l) s).1 := by
  induction l generalizing s with
  | nil => simp [combPollStmts, execStmts] at h
  | cons nt rest ih =>
      rw [combPollStmts, comb_step] at h ⊢
      cases hb : s.bufs nt.1 with
      | empty =>
          rw [hb] at h
          simp only [combHeadTrace, List.cons_append, List.nil_append,
            List.mem_cons] at h
          rcases h with h | h
          · cases h; exact absurd rfl hr
          · rcases ih (combHeadState nt.1 s) h with ⟨e, he⟩
            exact ⟨e, by simp [combHeadTrace, hb, he]⟩
      | fresh e' =>
          rw [hb] at h
          simp only [combHeadTrace, List.cons_append, List.nil_append,
            List.mem_cons] at h
          rcases h with h | h | h | h
          · cases h; exact ⟨e', by simp [combHeadTrace, hb]⟩
          · exact absurd h (by simp)
          · exact absurd h (by simp)
          · rcases ih (combHeadState nt.1 s) h with ⟨e, he⟩
            exact ⟨e, by simp [combHeadTrace, hb, he]⟩
      | seen e' =>
          rw [hb] at h
          simp only [combHeadTrace, List.cons_append, List.nil_append,
            List.mem_cons] at h
          rcases h with h | h | h
          · cases h; exact ⟨e', by simp [combHeadTrace, hb]⟩
          · exact absurd h (by simp)
          · rcases ih (combHeadState nt.1 s) h with ⟨e, he⟩
            exact ⟨e, by simp [combHeadTrace, hb, he]⟩

theorem comb_ack_iff (l : List (String × String)) (s : ExecState) (p : String) :
    (∃ e, Ev.ackPort p e ∈ (execStmts (combPollStmts l) s).1) ↔
      (∃ r, r ≠ RxType.NoValue ∧
        Ev.tryRecvPort p r ∈ (execStmts (combPollStmts l) s).1) := by
  constructor
  · rintro ⟨e, he⟩
    rcases comb_ack_justified l s p e he with hn | ⟨hr, _⟩
    · exact ⟨RxType.NewValue, by simp, hn⟩
    · exact ⟨RxType.Repeated, by simp, hr⟩
  · rintro ⟨r, hne, hmem⟩
    exact comb_tryRecv_acked l s p r hmem hne

theorem comb_declared_polled (l : List (String × String)) (s : ExecState)
    (q : String) (ty : String) (h : (q, ty) ∈ l) :
    ∃ r, Ev.tryRecvPort q r ∈ (execStmts (combPollStmts l) s).1 := by
  induction l generalizing s with
  | nil => cases h
  | cons nt rest ih =>
      rw [combPollStmts, comb_step]
      rcases List.mem_cons.mp h with h | h
      · cases h
        cases hb : s.bufs q
        · exact ⟨RxType.NoValue, by simp [combHeadTrace, hb]⟩
        · exact ⟨RxType.NewValue, by simp [combHeadTrace, hb]⟩
        · exact ⟨RxType.Repeated, by simp [combHeadTrace, hb]⟩
      · rcases ih (combHeadState nt.1 s) h with ⟨r, hr⟩
        exact ⟨r, by simp [hr]⟩

theorem comb_events_shape (l : List (String × String)) (s : ExecState)
    (x : Ev) (h : x ∈ (execStmts (combPollStmts l) s).1) :
    (∃ q r, x = Ev.tryRecvPort q r) ∨ (∃ q, x = Ev.onCombPort q) ∨
      (∃ q e, x = Ev.ackPort q e) := by
  induction l generalizing s with
  | nil => simp [combPollStmts, execStmts] at h
  | cons nt rest ih =>
      rw [combPollStmts, comb_step] at h
      rcases List.mem_append.mp h with hh | hh
      · cases hb : s.bufs nt.1 <;> rw [hb] at hh <;>
          simp only [combHeadTrace, List.mem_cons, List.not_mem_nil, or_false] at hh
        · subst hh; simp
        · rcases hh with rfl | rfl | rfl <;> simp
        · rcases hh with rfl | rfl <;> simp
      · exact ih (combHeadState nt.1 s) hh

theorem comb_declared_stmt (l : List (String × String))
    (q : String) (ty : String) (h : (q, ty) ∈ l) :
    GStmt.letRecvResult q ∈ combPollStmts l := by
  induction l with
  | nil => cases h
  | cons nt rest ih =>
      rw [combPollStmts]
      rcases List.mem_cons.mp h with h | h
      · cases h; simp [push_comb_recv_stmt]
      · simp [ih h]

theorem comb_declared_reset_stmt (l : List (String × String))
    (q : String) (ty : String) (h : (q, ty) ∈ l) :
    GStmt.rxReset q ∈ combResetStmts l := by
  induction l with
  | nil => cases h
  | cons nt rest ih =>
      rw [combResetStmts]
      rcases List.mem_cons.mp h with h | h
      · cases h; simp [push_reset_stmt]
      · simp [ih h]

theorem combReset_bufs (l : List (String × String)) (s : ExecState) (p : String) :
    (execStmts (combResetStmts l) s).2.bufs p =
      if l.any (fun nt => nt.1 == p) then RxBuf.empty else s.bufs p := by
  induction l generalizing s with
  | nil => simp [combResetStmts, execStmts]
  | cons nt rest ih =>
      rw [combResetStmts]
      simp only [push_reset_stmt, List.cons_append, List.nil_append]
      rw [show execStmts (GStmt.rxReset nt.1 :: combResetStmts rest) s =
        (Ev.rxResetPort nt.1 ::
          (execStmts (combResetStmts rest)
            { s with bufs := fun x => if x = nt.1 then RxBuf.empty else s.bufs x }).1,
         (execStmts (combResetStmts rest)
            { s with bufs := fun x => if x = nt.1 then RxBuf.empty else s.bufs x }).2)
        from by simp [execStmts, execStmt]]
      rw [ih]
      by_cases hp : nt.1 = p
      · subst hp; simp
      · have hp' : ¬ p = nt.1 := fun hh => hp hh.symm
        cases ha : rest.any (fun nt => nt.1 == p) <;> simp [hp, hp', ha]

theorem poll_step_noclock (cfg : ComponentConfig) (uf : List (String × String))
    (σ : ExecState) (hc : clockOn cfg = false) :
    execPoll (componentAttribute cfg uf) σ =
      (Ev.pollImpl :: (execStmts (combPollStmts (inputsOf cfg)) σ).1,
       (execStmts (combPollStmts (inputsOf cfg)) σ).2) := by
  simp [execPoll, componentAttribute, pollRecvStmts, hc, execStmts, execStmt]

theorem poll_step_clock_some (cfg : ComponentConfig) (uf : List (String × String))
    (σ : ExecState) (e : Nat) (hc : clockOn cfg = true) (h : σ.clockQ = some e) :
    execPoll (componentAttribute cfg uf) σ =
      (Ev.pollImpl :: Ev.tryRecvClock (some e) :: Ev.onClock :: Ev.onCombClock ::
         Ev.ackClock e ::
         (execStmts (combPollStmts (inputsOf cfg)) { σ with clockQ := none }).1,
       (execStmts (combPollStmts (inputsOf cfg)) { σ with clockQ := none }).2) := by
  simp [execPoll, componentAttribute, pollRecvStmts, hc, push_clock_recv_stmt,
    execStmts, execStmt, h]

theorem poll_step_clock_none (cfg : ComponentConfig) (uf : List (String × String))
    (σ : ExecState) (hc : clockOn cfg = true) (h : σ.clockQ = none) :
    execPoll (componentAttribute cfg uf) σ =
      (Ev.pollImpl :: Ev.tryRecvClock none ::
         (execStmts (combPollStmts (inputsOf cfg)) σ).1,
       (execStmts (combPollStmts (inputsOf cfg)) σ).2) := by
  simp [execPoll, componentAttribute, pollRecvStmts, hc, push_clock_recv_stmt,
    execStmts, execStmt, h]

/-- Claim C2: in any invocation of the generated `poll_recv`, from any
receiver states, the combinational callback is invoked from a port's
generated statement exactly when that port's `try_recv` returned
`NewValue`, and the port's `ack()` is invoked exactly when that port's
`try_recv` result was not `NoValue`. -/
theorem claim_C2_on_comb_and_ack_iff (cfg : ComponentConfig)
    (uf : List (String × String)) (σ : ExecState) (p : String) :
    (Ev.onCombPort p ∈ (execPoll (componentAttribute cfg uf) σ).1 ↔
       Ev.tryRecvPort p RxType.NewValue ∈ (execPoll (componentAttribute cfg uf) σ).1)
    ∧ ((∃ e, Ev.ackPort p e ∈ (execPoll (componentAttribute cfg uf) σ).1) ↔
       (∃ r, r ≠ RxType.NoValue ∧
         Ev.tryRecvPort p r ∈ (execPoll (componentAttribute cfg uf) σ).1)) := by
  by_cases hc : clockOn cfg = true
  · cases hq : σ.clockQ with
    | some e =>
        rw [poll_step_clock_some cfg uf σ e hc hq]
        constructor
        · simpa using comb_onComb_iff (inputsOf cfg) { σ with clockQ := none } p
        · simpa using comb_ack_iff (inputsOf cfg) { σ with clockQ := none } p
    | none =>
        rw [poll_step_clock_none cfg uf σ hc hq]
        constructor
        · simpa using comb_onComb_iff (inputsOf cfg) σ p
        · simpa using comb_ack_iff (inputsOf cfg) σ p
  · rw [poll_step_noclock cfg uf σ (Bool.not_eq_true _ ▸ hc)]
    constructor
    · simpa using comb_onComb_iff (inputsOf cfg) σ p
    · simpa using comb_ack_iff (inputsOf cfg) σ p

/-- Claim C3: on a clock-bearing component with a pending tick, the
generated `poll_recv` polls the clock receiver before polling any data
input port, and handles the tick by invoking `on_clock`, then `on_comb`,
then sending the tick's acknowledgment, in that order: the invocation's
trace starts with the `poll_impl` call and the clock block's four events,
and every data-port poll happens in the remainder, which contains no
clock events. -/
theorem claim_C3_clock_first_then_ports (cfg : ComponentConfig)
    (uf : List (String × String)) (σ : ExecState) (e : Nat)
    (hc : clockOn cfg = true) (h : σ.clockQ = some e) :
    ∃ rest,
      (execPoll (componentAttribute cfg uf) σ).1 =
        Ev.pollImpl :: Ev.tryRecvClock (some e) :: Ev.onClock :: Ev.onCombClock ::
          Ev.ackClock e :: rest
      ∧ (∀ q ty, (q, ty) ∈ inputsOf cfg → ∃ r, Ev.tryRecvPort q r ∈ rest)
      ∧ Ev.onClock ∉ rest ∧ Ev.onCombClock ∉ rest
      ∧ (∀ x, Ev.tryRecvClock x ∉ rest) := by
  refine ⟨(execStmts (combPollStmts (inputsOf cfg)) { σ with clockQ := none }).1,
    ?_, ?_, ?_, ?_, ?_⟩
  · rw [poll_step_clock_some cfg uf σ e hc h]
  · intro q ty hq
    exact comb_declared_polled (inputsOf cfg) { σ with clockQ := none } q ty hq
  · intro hmem
    rcases comb_events_shape _ _ _ hmem with ⟨q, r, hx⟩ | ⟨q, hx⟩ | ⟨q, e', hx⟩ <;>
      cases hx
  · intro hmem
    rcases comb_events_shape _ _ _ hmem with ⟨q, r, hx⟩ | ⟨q, hx⟩ | ⟨q, e', hx⟩ <;>
      cases hx
  · intro x hmem
    rcases comb_events_shape _ _ _ hmem with ⟨q, r, hx⟩ | ⟨q, hx⟩ | ⟨q, e', hx⟩ <;>
      cases hx

/-- Claim C3 witness: the clocked one-input component with tick event 7
pending and a fresh value on port "a". -/
theorem claim_C3_witness :
    ∃ rest,
      (execPoll (componentAttribute cfgClockInput []) stTickAndSend).1 =
        Ev.pollImpl :: Ev.tryRecvClock (some 7) :: Ev.onClock :: Ev.onCombClock ::
          Ev.ackClock 7 :: rest
      ∧ (∀ q ty, (q, ty) ∈ inputsOf cfgClockInput → ∃ r, Ev.tryRecvPort q r ∈ rest)
      ∧ Ev.onClock ∉ rest ∧ Ev.onCombClock ∉ rest
      ∧ (∀ x, Ev.tryRecvClock x ∉ rest) :=
  claim_C3_clock_first_then_ports cfgClockInput [] stTickAndSend 7 rfl rfl

/-- Claim C6: the generated `reset` contains a receiver `reset()` call for
every declared input port, and executing the generated `reset` from any
state leaves every declared input port's receiver cleared to its
default/empty state. -/
theorem claim_C6_reset_clears_inputs (cfg : ComponentConfig)
    (uf : List (String × String)) (σ : ExecState) (p ty : String)
    (h : (p, ty) ∈ inputsOf cfg) :
    GStmt.rxReset p ∈ (componentAttribute cfg uf).impl.reset
    ∧ (execStmts (componentAttribute cfg uf).impl.reset σ).2.bufs p
        = RxBuf.empty := by
  constructor
  · have : GStmt.rxReset p ∈ combResetStmts (inputsOf cfg) :=
      comb_declared_reset_stmt (inputsOf cfg) p ty h
    simp [componentAttribute, resetStmts, this]
  · have hstep : execStmts (componentAttribute cfg uf).impl.reset σ =
        (Ev.resetImpl :: (execStmts (combResetStmts (inputsOf cfg)) σ).1,
         (execStmts (combResetStmts (inputsOf cfg)) σ).2) := by
      simp [componentAttribute, resetStmts, execStmts, execStmt]
    rw [hstep, combReset_bufs]
    have : (inputsOf cfg).any (fun nt => nt.1 == p) = true :=
      List.any_eq_true.mpr ⟨(p, ty), h, by simp⟩
    simp [this]

/-- Claim C6 witness: resetting the one-input component from the state
where port "a" has seen event 5 clears port "a". -/
theorem claim_C6_witness :
    GStmt.rxReset "a" ∈ (componentAttribute cfgOneInput []).impl.reset
    ∧ (execStmts (componentAttribute cfgOneInput []).impl.reset stSeenFive).2.bufs "a"
        = RxBuf.empty :=
  claim_C6_reset_clears_inputs cfgOneInput [] stSeenFive "a" "u32" (by decide)

/-- Claim C8 (amended): the generated `poll_recv` invokes the
user-implemented `poll_impl` first, and the generated clock and
input-port polling statements execute directly in `poll_recv`'s body
after that call — not within `poll_impl`, which the macro leaves entirely
to the user. -/
theorem claim_C8_amended_polling_in_poll_recv (cfg : ComponentConfig)
    (uf : List (String × String)) (σ : ExecState) :
    ((execPoll (componentAttribute cfg uf) σ).1.head? = some Ev.pollImpl)
    ∧ (componentAttribute cfg uf).impl.poll_recv =
        GStmt.callPollImpl ::
          ((if clockOn cfg then push_clock_recv_stmt else [])
            ++ combPollStmts (inputsOf cfg))
    ∧ (clockOn cfg = true →
        GStmt.clockRecv ∈ (componentAttribute cfg uf).impl.poll_recv)
    ∧ (∀ p ty, (p, ty) ∈ inputsOf cfg →
        GStmt.letRecvResult p ∈ (componentAttribute cfg uf).impl.poll_recv) := by
  refine ⟨?_, ?_, ?_, ?_⟩
  · simp [execPoll, componentAttribute, pollRecvStmts, execStmts, execStmt]
  · simp [componentAttribute, pollRecvStmts]
  · intro hc
    simp [componentAttribute, pollRecvStmts, hc, push_clock_recv_stmt]
  · intro p ty h
    simp [componentAttribute, pollRecvStmts, comb_declared_stmt (inputsOf cfg) p ty h]

/-- Claim C8 witness: the clocked one-input component. -/
theorem claim_C8_witness :
    ((execPoll (componentAttribute cfgClockInput []) stTickAndSend).1.head?
        = some Ev.pollImpl)
    ∧ GStmt.clockRecv ∈ (componentAttribute cfgClockInput []).impl.poll_recv
    ∧ GStmt.letRecvResult "a" ∈ (componentAttribute cfgClockInput []).impl.poll_recv :=
  ⟨(claim_C8_amended_polling_in_poll_recv cfgClockInput [] stTickAndSend).1,
   (claim_C8_amended_polling_in_poll_recv cfgClockInput [] stTickAndSend).2.2.1 rfl,
   (claim_C8_amended_polling_in_poll_recv cfgClockInput [] stTickAndSend).2.2.2
     "a" "u32" (by decide)⟩

theorem pollOneInput_seen_trace (σ : ExecState) (h : σ.bufs "a" = RxBuf.seen 0) :
    (execPoll genOneInput σ).1 =
      [Ev.pollImpl, Ev.tryRecvPort "a" RxType.Repeated, Ev.ackPort "a" 0] := by
  simp [execPoll, genOneInput, componentAttribute, pollRecvStmts, cfgOneInput, clockOn,
    inputsOf, combPollStmts, push_comb_recv_stmt, execStmts, execStmt, h, tryRecvBuf,
    ackBuf]

theorem pollOneInput_seen_state (σ : ExecState) (h : σ.bufs "a" = RxBuf.seen 0) :
    (execPoll genOneInput σ).2.bufs "a" = RxBuf.seen 0 := by
  simp [execPoll, genOneInput, componentAttribute, pollRecvStmts, cfgOneInput, clockOn,
    inputsOf, combPollStmts, push_comb_recv_stmt, execStmts, execStmt, h, tryRecvBuf,
    ackBuf]

theorem passesOneInput_seen (n : Nat) (σ : ExecState)
    (h : σ.bufs "a" = RxBuf.seen 0) :
    (execPasses n genOneInput σ).1.count (Ev.ackPort "a" 0) = n ∧
    (execPasses n genOneInput σ).1.count (Ev.onCombPort "a") = 0 := by
  induction n generalizing σ with
  | zero => simp [execPasses]
  | succ m ih =>
      have ht := pollOneInput_seen_trace σ h
      have hs := pollOneInput_seen_state σ h
      have hrec := ih (execPoll genOneInput σ).2 hs
      constructor
      · simp [execPasses, List.count_append, ht, hrec.1, List.count_cons,
          Nat.add_comm]
      · simp [execPasses, List.count_append, ht, hrec.2, List.count_cons]

theorem pollOneInput_fresh_trace :
    (execPoll genOneInput stOneSend).1 =
      [Ev.pollImpl, Ev.tryRecvPort "a" RxType.NewValue, Ev.onCombPort "a",
       Ev.ackPort "a" 0] := by
  decide

theorem pollOneInput_fresh_state :
    (execPoll genOneInput stOneSend).2.bufs "a" = RxBuf.seen 0 := by
  decide

/-- Claim C1 counterexample: one value (event id 0) is delivered on the
one-input component's port "a" and the generated `poll_recv` runs for two
passes with no further send.  The value is observed as `NewValue` exactly
once, yet — because the second pass's `try_recv` returns `Repeated` (a
non-`NoValue` result) and the generated code acknowledges every
non-`NoValue` result — `ack()` is invoked twice for that single delivered
value, so the value is not acknowledged at most once. -/
theorem claim_C1_counterexample :
    (execPasses 2 genOneInput stOneSend).1.count
        (Ev.tryRecvPort "a" RxType.NewValue) = 1
    ∧ (execPasses 2 genOneInput stOneSend).1.count (Ev.ackPort "a" 0) = 2 := by
  refine ⟨by decide, by decide⟩

/-- Claim C1 (amended): the generated `poll_recv` never issues an ack on a
port whose value was never observed as `NewValue` — every `ack()` it
issues is for the port's held event, which was observed as `NewValue`
either in the same pass or in an earlier one (the `Repeated` case) — but a
delivered value is not acknowledged at most once: a `Repeated` result in
each later pass issues `ack()` again for the already-acknowledged value,
once per pass while no new send arrives. -/
theorem claim_C1_amended_ack_observed (cfg : ComponentConfig)
    (uf : List (String × String)) (σ : ExecState) (p : String) (e : Nat)
    (h : Ev.ackPort p e ∈ (execPoll (componentAttribute cfg uf) σ).1) :
    (Ev.tryRecvPort p RxType.NewValue ∈ (execPoll (componentAttribute cfg uf) σ).1 ∨
      (Ev.tryRecvPort p RxType.Repeated ∈ (execPoll (componentAttribute cfg uf) σ).1
        ∧ σ.bufs p = RxBuf.seen e))
    ∧ ∀ n, (execPasses n genOneInput stOneSend).1.count (Ev.ackPort "a" 0) = n := by
  constructor
  · by_cases hc : clockOn cfg = true
    · cases hq : σ.clockQ with
      | some e' =>
          rw [poll_step_clock_some cfg uf σ e' hc hq] at h ⊢
          simp only [List.mem_cons] at h
          rcases h with h | h | h | h | h | h
          · exact absurd h (by simp)
          · exact absurd h (by simp)
          · exact absurd h (by simp)
          · exact absurd h (by simp)
          · exact absurd h (by simp)
          · rcases comb_ack_justified _ _ p e h with hn | ⟨hr, hs⟩
            · simp [hn]
            · exact Or.inr ⟨by simp [hr], hs⟩
      | none =>
          rw [poll_step_clock_none cfg uf σ hc hq] at h ⊢
          simp only [List.mem_cons] at h
          rcases h with h | h | h
          · exact absurd h (by simp)
          · exact absurd h (by simp)
          · rcases comb_ack_justified _ _ p e h with hn | ⟨hr, hs⟩
            · simp [hn]
            · exact Or.inr ⟨by simp [hr], hs⟩
    · rw [poll_step_noclock cfg uf σ (Bool.not_eq_true _ ▸ hc)] at h ⊢
      simp only [List.mem_cons] at h
      rcases h with h | h
      · exact absurd h (by simp)
      · rcases comb_ack_justified _ _ p e h with hn | ⟨hr, hs⟩
        · simp [hn]
        · exact Or.inr ⟨by simp [hr], hs⟩
  · intro n
    cases n with
    | zero => simp [execPasses]
    | succ m =>
        have hrec := passesOneInput_seen m (execPoll genOneInput stOneSend).2
          pollOneInput_fresh_state
        simp [execPasses, List.count_append, pollOneInput_fresh_trace, hrec.1,
          List.count_cons, Nat.add_comm]

/-- Claim C1 witness: in the one-input component with port "a" in the
already-seen state for event 5, the pass's ack is justified by a
`NewValue` observation of an earlier pass. -/
theorem claim_C1_witness :
    (Ev.tryRecvPort "a" RxType.NewValue
        ∈ (execPoll (componentAttribute cfgOneInput []) stSeenFive).1 ∨
      (Ev.tryRecvPort "a" RxType.Repeated
          ∈ (execPoll (componentAttribute cfgOneInput []) stSeenFive).1
        ∧ stSeenFive.bufs "a" = RxBuf.seen 5))
    ∧ ∀ n, (execPasses n genOneInput stOneSend).1.count (Ev.ackPort "a" 0) = n :=
  claim_C1_amended_ack_observed cfgOneInput [] stSeenFive "a" 5 (by decide)

/-- Claim C9: if the attribute JSON does not deserialize into
`ComponentConfig` the macro panics (produces no output); if any declared
input or output port's type string fails the token-level parse the macro
panics; and a well-formed config expands successfully. -/
theorem claim_C9_panics_and_success :
    (∀ (tp idk : String → Bool) (uf : List (String × String)) (j : Json),
      (ComponentConfig.fromJson j).toOption = none →
        componentAttributeFallible tp idk j uf = none)
    ∧ (∀ (tp idk : String → Bool) (uf : List (String × String)) (j : Json)
        (cfg : ComponentConfig) (nt : String × String),
        ComponentConfig.fromJson j = Except.ok cfg →
        nt ∈ inputsOf cfg ++ outputsOf cfg → tp nt.2 = false →
          componentAttributeFallible tp idk j uf = none)
    ∧ componentAttributeFallible (fun _ => true) (fun _ => true) jsonGood [] =
        some (componentAttribute cfgGood []) := by
  refine ⟨?_, ?_, ?_⟩
  · intro tp idk uf j h
    cases hj : ComponentConfig.fromJson j with
    | error msg => simp [componentAttributeFallible, hj]
    | ok cfg => rw [hj] at h; simp [Except.toOption] at h
  · intro tp idk uf j cfg nt hj hmem htp
    simp only [componentAttributeFallible, hj]
    rw [if_neg]
    intro hcond
    rw [Bool.and_eq_true] at hcond
    rcases List.mem_append.mp hmem with hin | hout
    · have := List.all_eq_true.mp hcond.1 nt hin
      simp [htp] at this
    · have := List.all_eq_true.mp hcond.2 nt hout
      simp [htp] at this
  · decide

/-- Claim C9 witness: the macro panics on the JSON whose port field is a
number, and on a well-formed JSON when the port type string fails to
parse. -/
theorem claim_C9_witness :
    componentAttributeFallible (fun _ => true) (fun _ => true) jsonBad [] = none
    ∧ componentAttributeFallible (fun _ => false) (fun _ => true) jsonGood [] = none :=
  ⟨claim_C9_panics_and_success.1 (fun _ => true) (fun _ => true) [] jsonBad rfl,
   claim_C9_panics_and_success.2.1 (fun _ => false) (fun _ => true) [] jsonGood
     cfgGood ("a", "u32") rfl (by decide) rfl⟩

end RsimMacro
